import Mathlib

/-
Verification development for the Stork server core: the Kea lease-statistics
puller (backend/server/apps/kea/statspuller.go) and the event center
(server/eventcenter, mainLoop / CreateEvent / AddEvent / Shutdown).

The Go code is shallowly embedded: collaborator calls (database fetch, the
agent transport, the SSE broker) are abstracted as explicit inputs or recorded
in explicit call traces, Go errors become Option/Except values, and a Go
index-out-of-range failure inside a loop is modelled as a none result of the
surrounding computation. Every collaborator invocation the source performs is
recorded, so statements about which calls are or are not made are statements
about these traces.
-/

namespace Stork

/-! ## Kea stats puller: data model (statspuller.go) -/

/-- An error value, standing for a Go error. -/
abbrev Err := String

/-- A daemon entry of the Kea app details, dbmodel.KeaDaemon; only the Name
field is read by the stats puller. -/
structure KeaDaemon where
  name : String
deriving DecidableEq

/-- A Kea app row, dbmodel.App, restricted to the fields the stats puller and
the event tags read: ID, Type and Meta.Version (event tags), CtrlAddress and
CtrlPort (control agent URL), Machine.Address and Machine.AgentPort (transport
destination), and Details.(AppKea).Daemons. -/
structure App where
  ID : Int
  type : String
  metaVersion : String
  ctrlAddress : String
  ctrlPort : Int
  machineAddress : String
  machineAgentPort : Int
  daemons : List KeaDaemon
deriving DecidableEq

/-- agentcomm.KeaDaemons, a Go map from daemon name to bool used as a set:
the keys inserted with value true. -/
structure KeaDaemons where
  keys : List String
deriving DecidableEq

/-- Go map lookup dhcpDaemons[k]: true exactly when the key was inserted. -/
def KeaDaemons.get (m : KeaDaemons) (k : String) : Bool :=
  m.keys.contains k

/-- Go map insert dhcpDaemons[k] = true. -/
def KeaDaemons.insert (m : KeaDaemons) (k : String) : KeaDaemons :=
  if m.keys.contains k then m else ⟨m.keys ++ [k]⟩

/-- agentcomm.KeaCommand: a command name plus the daemon set it addresses. -/
structure KeaCommand where
  Command : String
  Daemons : KeaDaemons
deriving DecidableEq

/-- storkutil.HostWithPortURL (util.go line 25): Sprintf of
http with the address and port. -/
def HostWithPortURL (address : String) (port : Int) : String :=
  "http://" ++ address ++ ":" ++ toString port ++ "/"

/-- Lines 117 to 124 of getLeaseStatsFromApp: scan the app daemons, insert
those named dhcp4 or dhcp6 into the dhcpDaemons map and record whether any
was found. -/
def getActiveDhcpDaemons (daemons : List KeaDaemon) : KeaDaemons × Bool :=
  daemons.foldl
    (fun acc d =>
      if d.name = "dhcp4" || d.name = "dhcp6" then
        (acc.1.insert d.name, true)
      else
        acc)
    (⟨[]⟩, false)

/-- Lines 131 to 143 of getLeaseStatsFromApp, byte for byte: the first append
is guarded by dhcpDaemons[dhcp4] and so is the second one, which builds the
stat-lease6-get command (the source tests the dhcp4 key both times). -/
def buildLeaseStatsCmds (dhcpDaemons : KeaDaemons) : List KeaCommand :=
  let cmds : List KeaCommand := []
  let cmds :=
    if dhcpDaemons.get "dhcp4" then
      cmds ++ [⟨"stat-lease4-get", dhcpDaemons⟩]
    else cmds
  let cmds :=
    if dhcpDaemons.get "dhcp4" then
      cmds ++ [⟨"stat-lease6-get", dhcpDaemons⟩]
    else cmds
  cmds

/-- ResultSetInStatLeaseGet: the tabular result of a stat-lease get command. -/
structure ResultSetInStatLeaseGet where
  Columns : List String
  Rows : List (List Int)
deriving DecidableEq

/-- StatLeaseGetArgs: arguments of a stat-lease get response. -/
structure StatLeaseGetArgs where
  ResultSet : ResultSetInStatLeaseGet
  Timestamp : String
deriving DecidableEq

/-- StatLease4GetResponse; the embedded KeaResponseHeader fields are not read
by the puller and are omitted. Arguments is a nullable pointer. -/
structure StatLease4GetResponse where
  Arguments : Option StatLeaseGetArgs
deriving DecidableEq

/-- StatLease6GetResponse, same shape as the v4 response. -/
structure StatLease6GetResponse where
  Arguments : Option StatLeaseGetArgs
deriving DecidableEq

/-! ## Kea stats puller: response processing (lines 157 to 182)

The source logs, for each row of each result set, the pair
(Columns[colIdx], col) for every value of the row. The Go expression
Columns[colIdx] is an unchecked slice index: when a row holds more values
than there are declared columns it fails with an index-out-of-range, which we
model as a none result of the whole computation. A some result carries the
logged (column name, value) pairs. -/

/-- One row of the inner loop: for colIdx, col := range row, reading
Columns[colIdx] at each step. -/
def logLeaseStatRow (columns : List String) : Nat → List Int → Option (List (String × Int))
  | _, [] => some []
  | colIdx, col :: restRow =>
    match columns[colIdx]? with
    | none => none
    | some name =>
      match logLeaseStatRow columns (colIdx + 1) restRow with
      | none => none
      | some tl => some ((name, col) :: tl)

/-- The middle loop over Rows of one result set. -/
def logLeaseStatRows (columns : List String) : List (List Int) → Option (List (List (String × Int)))
  | [] => some []
  | row :: rest =>
    match logLeaseStatRow columns 0 row with
    | none => none
    | some l =>
      match logLeaseStatRows columns rest with
      | none => none
      | some ls => some (l :: ls)

/-- Processing of one decoded result set. -/
def logLeaseStatResultSet (rs : ResultSetInStatLeaseGet) : Option (List (List (String × Int))) :=
  logLeaseStatRows rs.Columns rs.Rows

/-- The outer loop over a response list: responses with a nil Arguments
pointer are passed over, the others have their result set processed. -/
def logStatResponses : List (Option StatLeaseGetArgs) → Option (List (List (String × Int)))
  | [] => some []
  | none :: rest => logStatResponses rest
  | some args :: rest =>
    match logLeaseStatResultSet args.ResultSet with
    | none => none
    | some l =>
      match logStatResponses rest with
      | none => none
      | some ls => some (l ++ ls)

/-! ## Kea stats puller: per-app collection (getLeaseStatsFromApp) -/

/-- KeaCmdsResult returned by the transport; the puller only reads Error. -/
structure KeaCmdsResult where
  Error : Option Err

/-- Result of agentcomm ForwardToKeaOverHTTP: either a transport error, or a
command result together with the two positional response slots. -/
inductive ForwardResult where
  | transportErr (e : Err)
  | result (cmdsResult : KeaCmdsResult) (stats4Resp : List StatLease4GetResponse)
      (stats6Resp : List StatLease6GetResponse)

/-- The transport collaborator, agentcomm.ConnectedAgents: its
ForwardToKeaOverHTTP capability, taking the machine address, agent port,
control agent URL and the command batch. -/
structure ConnectedAgents where
  ForwardToKeaOverHTTP : String → Int → String → List KeaCommand → ForwardResult

/-- A collaborator call the puller can make. The source makes exactly one
kind; the storageUpsert form is declared so that statements about writes
through the storage collaborator can be expressed over the call trace. -/
inductive CollabCall where
  | forwardToKea (machineAddress : String) (agentPort : Int) (caURL : String)
      (cmds : List KeaCommand)
  | storageUpsert (targetID : Int) (records : List (List (String × Int)))
deriving DecidableEq

/-- Whether a collaborator call is a write through the storage collaborator. -/
def CollabCall.isStorageUpsert : CollabCall → Bool
  | CollabCall.storageUpsert _ _ => true
  | _ => false

/-- Outcome of one getLeaseStatsFromApp invocation: a nil error, a non nil
error, or a Go runtime failure (index out of range) in the response loops. -/
inductive AppCallOutcome where
  | ok
  | err (e : Err)
  | panicked
deriving DecidableEq

/-- getLeaseStatsFromApp (lines 112 to 185): build the CA URL, collect the
active dhcp daemons, short circuit when none is found, otherwise build the
command batch, forward it, and on success run the logging loops over both
response slots. The second component records every collaborator call made. -/
def getLeaseStatsFromApp (agents : ConnectedAgents) (dbApp : App) :
    AppCallOutcome × List CollabCall :=
  let caURL := HostWithPortURL dbApp.ctrlAddress dbApp.ctrlPort
  let found := getActiveDhcpDaemons dbApp.daemons
  if !found.2 then
    (AppCallOutcome.ok, [])
  else
    let cmds := buildLeaseStatsCmds found.1
    let call := CollabCall.forwardToKea dbApp.machineAddress dbApp.machineAgentPort caURL cmds
    match agents.ForwardToKeaOverHTTP dbApp.machineAddress dbApp.machineAgentPort caURL cmds with
    | ForwardResult.transportErr e => (AppCallOutcome.err e, [call])
    | ForwardResult.result cmdsResult stats4Resp stats6Resp =>
      match cmdsResult.Error with
      | some e => (AppCallOutcome.err e, [call])
      | none =>
        match logStatResponses (stats4Resp.map StatLease4GetResponse.Arguments) with
        | none => (AppCallOutcome.panicked, [call])
        | some _ =>
          match logStatResponses (stats6Resp.map StatLease6GetResponse.Arguments) with
          | none => (AppCallOutcome.panicked, [call])
          | some _ => (AppCallOutcome.ok, [call])

/-! ## Kea stats puller: the collection cycle (gatherLeaseStats) -/

/-- The loop of gatherLeaseStats (lines 74 to 85): fold over the fetched apps
keeping the success counter and the last error; a Go runtime failure inside
one app call aborts the whole cycle, modelled as none. -/
def gatherLeaseStatsLoop (agents : ConnectedAgents) (appsOkCnt : Nat) (lastErr : Option Err) :
    List App → Option (Nat × Option Err)
  | [] => some (appsOkCnt, lastErr)
  | dbApp :: rest =>
    match (getLeaseStatsFromApp agents dbApp).1 with
    | AppCallOutcome.panicked => none
    | AppCallOutcome.err e => gatherLeaseStatsLoop agents appsOkCnt (some e) rest
    | AppCallOutcome.ok => gatherLeaseStatsLoop agents (appsOkCnt + 1) lastErr rest

/-- gatherLeaseStats (lines 66 to 87): a failed database fetch returns the
pair of zero and that error; otherwise the loop runs over the fetched apps. -/
def gatherLeaseStats (agents : ConnectedAgents) (dbAppsFetch : Except Err (List App)) :
    Option (Nat × Option Err) :=
  match dbAppsFetch with
  | Except.error e => some (0, some e)
  | Except.ok dbApps => gatherLeaseStatsLoop agents 0 none dbApps

/-- Specification side function for the cycle outcome: the last error carried
by a list of per-app outcomes, starting from a given earlier value. -/
def lastErrAfter (e : Option Err) (outcomes : List AppCallOutcome) : Option Err :=
  outcomes.foldl
    (fun acc o =>
      match o with
      | AppCallOutcome.err e2 => some e2
      | _ => acc)
    e

/-- Specification side function: the last error of a list of outcomes. -/
def lastErrorOf (outcomes : List AppCallOutcome) : Option Err :=
  lastErrAfter none outcomes

/-! ## Event center: data model (eventcenter, dbmodel.Event) -/

/-- dbmodel.Relations: the four related entity identifiers of an event; the
Go zero value of each field is 0. -/
structure Relations where
  machine : Int
  app : Int
  daemon : Int
  subnet : Int
deriving DecidableEq

/-- The zero value dbmodel.Relations, as built by the Relations literal at
the top of CreateEvent. -/
def Relations.empty : Relations := ⟨0, 0, 0, 0⟩

/-- dbmodel.Event restricted to the fields CreateEvent fills: Text, Level and
Relations (ID and CreatedAt are assigned at persistence time). -/
structure Event where
  text : String
  level : Int
  relations : Relations
deriving DecidableEq

/-- dbmodel.Machine restricted to the fields machineTag reads: ID, Address
and State.Hostname. -/
structure Machine where
  ID : Int
  Address : String
  StateHostname : String
deriving DecidableEq

/-- dbmodel.Daemon restricted to the fields daemonTag reads: ID, Name, AppID
and App.Type. -/
structure Daemon where
  ID : Int
  name : String
  appID : Int
  appType : String
deriving DecidableEq

/-- dbmodel.Subnet restricted to the fields subnetTag reads: ID and Prefix
(the second field is renamed because its Go name is a Lean keyword). -/
structure Subnet where
  ID : Int
  subnetPrefix : String
deriving DecidableEq

/-- The dynamic type switch of CreateEvent, as a sum over the four recognized
entity kinds; any other argument type falls into the unrecognized case and is
passed over by the loop. -/
inductive RelatedObject where
  | daemon (d : Daemon)
  | app (a : App)
  | machine (m : Machine)
  | subnet (s : Subnet)
  | unrecognized
deriving DecidableEq

/-! ## Event center: string substitution

Go strings.Replace with count -1 replaces every non overlapping occurrence of
the pattern, scanning left to right. The Lean core String.replace does not
reduce in the kernel, so the same semantics is written here over character
lists: the scanner is in mode 0 when it looks for the pattern at the current
position and in mode n+1 while it is still consuming the tail of a match.
Go inserts the replacement between characters when the pattern is empty; no
call site of the event center uses an empty pattern and that case is mapped
to the identity here. -/

/-- Character list scanner for replace-all. -/
def replaceAllCharsAux (pat rep : List Char) : Nat → List Char → List Char
  | 0, [] => []
  | 0, c :: rest =>
    if !pat.isEmpty && pat.isPrefixOf (c :: rest) then
      rep ++ replaceAllCharsAux pat rep (pat.length - 1) rest
    else
      c :: replaceAllCharsAux pat rep 0 rest
  | _ + 1, [] => []
  | n + 1, _ :: rest => replaceAllCharsAux pat rep n rest

/-- strings.Replace with count -1, on strings. -/
def stringsReplaceAll (s pat rep : String) : String :=
  String.mk (replaceAllCharsAux pat.data rep.data 0 s.data)

/-- Specification side predicate: whether the pattern occurs anywhere in the
character list (at the head or further right). -/
def containsPat (pat : List Char) : List Char → Bool
  | [] => pat.isEmpty
  | c :: rest => pat.isPrefixOf (c :: rest) || containsPat pat rest

/-- Specification side predicate: whether the pattern occurs as a substring
of the string. -/
def stringContainsPat (s pat : String) : Bool :=
  containsPat pat.data s.data

/-! ## Event center: tags and CreateEvent (part of eventcenter source) -/

/-- daemonTag: the formatted descriptor of a daemon. -/
def daemonTag (daemon : Daemon) : String :=
  "<daemon id=\"" ++ toString daemon.ID ++ "\" name=\"" ++ daemon.name ++
    "\" appId=\"" ++ toString daemon.appID ++ "\" appType=\"" ++ daemon.appType ++ "\">"

/-- appTag: the formatted descriptor of an app. -/
def appTag (app : App) : String :=
  "<app id=\"" ++ toString app.ID ++ "\" type=\"" ++ app.type ++
    "\" version=\"" ++ app.metaVersion ++ "\">"

/-- machineTag: the formatted descriptor of a machine. -/
def machineTag (machine : Machine) : String :=
  "<machine id=\"" ++ toString machine.ID ++ "\" address=\"" ++ machine.Address ++
    "\" hostname=\"" ++ machine.StateHostname ++ "\">"

/-- subnetTag: the formatted descriptor of a subnet. -/
def subnetTag (subnet : Subnet) : String :=
  "<subnet id=\"" ++ toString subnet.ID ++ "\" prefix=\"" ++ subnet.subnetPrefix ++ "\">"

/-- CreateEvent (lines 73 to 96 of the event center source): fold over the
related objects; each recognized object replaces every occurrence of the
placeholder of its kind in the running text with its tag and overwrites the
identifier of its kind in the relation set. -/
def CreateEvent (level : Int) (text : String) (objects : List RelatedObject) : Event :=
  let r := objects.foldl
    (fun (acc : String × Relations) obj =>
      match obj with
      | RelatedObject.daemon d =>
        (stringsReplaceAll acc.1 "{daemon}" (daemonTag d), { acc.2 with daemon := d.ID })
      | RelatedObject.app a =>
        (stringsReplaceAll acc.1 "{app}" (appTag a), { acc.2 with app := a.ID })
      | RelatedObject.machine m =>
        (stringsReplaceAll acc.1 "{machine}" (machineTag m), { acc.2 with machine := m.ID })
      | RelatedObject.subnet s =>
        (stringsReplaceAll acc.1 "{subnet}" (subnetTag s), { acc.2 with subnet := s.ID })
      | RelatedObject.unrecognized => acc)
    (text, Relations.empty)
  { text := r.1, level := level, relations := r.2 }

/-! ## Event center: the writer task (mainLoop, lines 121 to 138)

The writer task dequeues events one by one; for each it calls dbmodel
AddEvent once and, only when that call returns nil, DispatchEvent on the SSE
broker. The model processes the finite sequence of dequeued events and
returns the trace of persistence attempts and the trace of dispatched
events. -/

/-- The per event body of mainLoop over a dequeued event sequence. The first
component lists the events handed to the persistence collaborator (in order,
one attempt each); the second lists the events handed to the broker. -/
def mainLoopProcess (persistEvent : Event → Option Err) :
    List Event → List Event × List Event
  | [] => ([], [])
  | event :: rest =>
    let t := mainLoopProcess persistEvent rest
    match persistEvent event with
    | some _ => (event :: t.1, t.2)
    | none => (event :: t.1, event :: t.2)

/-! ## Event center: channel handoff (NewEventCenter, AddEvent)

NewEventCenter builds the incoming queue with make of chan with no capacity
argument, that is a rendezvous channel of capacity zero; AddEvent executes a
plain send on that channel. In the Go memory model a send on a channel
completes without blocking exactly when the channel buffer has free room or a
receiver is already blocked waiting on the channel. -/

/-- Capacity of the events channel created by NewEventCenter. -/
def eventsChanCapacity : Nat := 0

/-- Where the single writer task currently is: blocked at its select (hence
ready to receive) or inside the persistence call for an earlier event. -/
inductive WriterTaskState where
  | atSelect
  | persistingEvent (event : Event)
deriving DecidableEq

/-- Whether the writer task is blocked at a receive. -/
def writerReady : WriterTaskState → Bool
  | WriterTaskState.atSelect => true
  | WriterTaskState.persistingEvent _ => false

/-- Go channel send semantics: the send completes without blocking the sender
exactly when the buffer is not full or a receiver is waiting. -/
def chanSendCompletes (capacity buffered : Nat) (receiverWaiting : Bool) : Bool :=
  decide (buffered < capacity) || receiverWaiting

/-- AddEvent (line 108): one send on the events channel of the center. The
severity wrappers AddInfoEvent, AddWarnEvent and AddErroEvent all reach this
same send through addEvent, so their completion behaviour is this one. -/
def addEventCompletesWithoutBlocking (buffered : Nat) (w : WriterTaskState) : Bool :=
  chanSendCompletes eventsChanCapacity buffered (writerReady w)

/-! ## Shutdown lifecycle (StatsPuller.Shutdown with pullerLoop, and the
event center Shutdown with mainLoop)

Both pairs share one synchronization skeleton: the constructor sets a wait
group counter to one and starts the background task; the task loops on a
select over a work channel (ticker ticks, or incoming events) and a done
channel, returning when done is received, with a deferred wait group
decrement; Shutdown sends on the unbuffered done channel and then waits on
the wait group. The interleaving of the two tasks is modelled as a labelled
transition system; work arrival is left unconstrained (a pending tick may
still fire after the ticker is stopped, and callers may keep submitting
events). -/

/-- Phase of the background task. After receiving done the task first leaves
the loop (retiring) and then runs the deferred wait group decrement
(exited). -/
inductive LoopPhase where
  | atSelect
  | working
  | retiring
  | exited
deriving DecidableEq

/-- Phase of the Shutdown caller. -/
inductive ShutdownPhase where
  | notCalled
  | sendingDone
  | waitingOnWg
  | returned
deriving DecidableEq

/-- Joint state of the background task, the Shutdown caller, the wait group
counter and the work channel. -/
structure LifecycleState where
  loop : LoopPhase
  shutdown : ShutdownPhase
  wgCount : Nat
  workPending : Bool
deriving DecidableEq

/-- State right after the constructor: wait group at one, task at its select,
Shutdown not yet called. -/
def initLifecycle : LifecycleState :=
  ⟨LoopPhase.atSelect, ShutdownPhase.notCalled, 1, false⟩

/-- Interleaved small steps of the two tasks. -/
inductive LifecycleStep : LifecycleState → LifecycleState → Prop where
  | workArrives (s : LifecycleState) :
      LifecycleStep s { s with workPending := true }
  | startWork (s : LifecycleState) (h1 : s.loop = LoopPhase.atSelect)
      (h2 : s.workPending = true) :
      LifecycleStep s { s with loop := LoopPhase.working, workPending := false }
  | finishWork (s : LifecycleState) (h : s.loop = LoopPhase.working) :
      LifecycleStep s { s with loop := LoopPhase.atSelect }
  | callShutdown (s : LifecycleState) (h : s.shutdown = ShutdownPhase.notCalled) :
      LifecycleStep s { s with shutdown := ShutdownPhase.sendingDone }
  | doneRendezvous (s : LifecycleState) (h1 : s.shutdown = ShutdownPhase.sendingDone)
      (h2 : s.loop = LoopPhase.atSelect) :
      LifecycleStep s { s with shutdown := ShutdownPhase.waitingOnWg, loop := LoopPhase.retiring }
  | deferredWgDone (s : LifecycleState) (h : s.loop = LoopPhase.retiring) :
      LifecycleStep s { s with loop := LoopPhase.exited, wgCount := s.wgCount - 1 }
  | wgWaitReturns (s : LifecycleState) (h1 : s.shutdown = ShutdownPhase.waitingOnWg)
      (h2 : s.wgCount = 0) :
      LifecycleStep s { s with shutdown := ShutdownPhase.returned }

/-- Reachability from the constructed state. -/
def LifecycleReachable (s : LifecycleState) : Prop :=
  Relation.ReflTransGen LifecycleStep initLifecycle s

/-- Inductive invariant of the lifecycle system. -/
def LifecycleInv (s : LifecycleState) : Prop :=
  (s.wgCount = if s.loop = LoopPhase.exited then 0 else 1) ∧
  ((s.shutdown = ShutdownPhase.waitingOnWg ∨ s.shutdown = ShutdownPhase.returned) →
    (s.loop = LoopPhase.retiring ∨ s.loop = LoopPhase.exited)) ∧
  (s.shutdown = ShutdownPhase.returned → s.wgCount = 0)

/-! ## Concrete sample data used to instantiate the theorems -/

/-- A Kea app whose only active dhcp daemon is dhcp4. -/
def appDhcp4 : App :=
  ⟨7, "kea", "1.7.3", "192.0.2.1", 8000, "machine1", 8080, [⟨"dhcp4"⟩]⟩

/-- A Kea app with a control agent daemon only, no dhcp4 and no dhcp6. -/
def appNoDhcp : App :=
  ⟨3, "kea", "1.7.3", "192.0.2.3", 8000, "machine3", 8080, [⟨"ca"⟩, ⟨"d2"⟩]⟩

/-- Two apps used for the mixed outcome cycle: the transport refuses the
first machine and answers the second one with an empty successful result. -/
def appT1 : App :=
  ⟨1, "kea", "1.7.3", "192.0.2.11", 8000, "t1", 8080, [⟨"dhcp4"⟩]⟩

/-- The second app of the mixed outcome cycle. -/
def appT2 : App :=
  ⟨2, "kea", "1.7.3", "192.0.2.12", 8000, "t2", 8080, [⟨"dhcp4"⟩]⟩

/-- A transport that fails for machine t1 and succeeds for every other one. -/
def agentsT1failT2ok : ConnectedAgents :=
  ⟨fun machineAddress _ _ _ =>
    if machineAddress = "t1" then ForwardResult.transportErr "connection refused"
    else ForwardResult.result ⟨none⟩ [] []⟩

/-- A decoded v4 response carrying one well formed statistics row. -/
def stats4RespSample : List StatLease4GetResponse :=
  [⟨some ⟨⟨["total-addresses", "assigned-addresses"], [[256, 111]]⟩, "2020-03-24 10:00:00"⟩⟩]

/-- A transport that always succeeds and returns the sample v4 statistics. -/
def agentsWithStats : ConnectedAgents :=
  ⟨fun _ _ _ _ => ForwardResult.result ⟨none⟩ stats4RespSample []⟩

/-- A machine with identifier 5. -/
def machine5 : Machine := ⟨5, "10.0.0.1", "host-one"⟩

/-- A machine with identifier 6. -/
def machine6 : Machine := ⟨6, "10.0.0.2", "host-two"⟩

/-- A sample event for the channel model. -/
def sampleEvent : Event := ⟨"sample", 0, Relations.empty⟩

/-- The lifecycle state right after a completed Shutdown. -/
def lifecycleReturnedState : LifecycleState :=
  ⟨LoopPhase.exited, ShutdownPhase.returned, 0, false⟩

/-! ## Helper lemmas -/

/-- The daemon scan leaves the accumulator untouched when no daemon is named
dhcp4 or dhcp6. -/
theorem dhcpDaemonFold_const (daemons : List KeaDaemon) (acc : KeaDaemons × Bool)
    (h : ∀ d ∈ daemons, d.name ≠ "dhcp4" ∧ d.name ≠ "dhcp6") :
    daemons.foldl
      (fun acc d =>
        if d.name = "dhcp4" || d.name = "dhcp6" then
          (acc.1.insert d.name, true)
        else
          acc)
      acc = acc := by
  induction daemons generalizing acc with
  | nil => rfl
  | cons d rest ih =>
    have hd := h d (by simp)
    have hrest : ∀ x ∈ rest, x.name ≠ "dhcp4" ∧ x.name ≠ "dhcp6" :=
      fun x hx => h x (by simp [hx])
    simp only [List.foldl_cons, hd.1, hd.2]
    simpa [hd.1, hd.2] using ih acc hrest

/-- With no dhcp4 or dhcp6 daemon the scan of getLeaseStatsFromApp finds
nothing. -/
theorem getActiveDhcpDaemons_of_no_dhcp (daemons : List KeaDaemon)
    (h : ∀ d ∈ daemons, d.name ≠ "dhcp4" ∧ d.name ≠ "dhcp6") :
    getActiveDhcpDaemons daemons = (⟨[]⟩, false) :=
  dhcpDaemonFold_const daemons (⟨[]⟩, false) h

/-- With no dhcp4 or dhcp6 daemon, getLeaseStatsFromApp returns a nil error
without making any collaborator call. -/
theorem getLeaseStatsFromApp_skip (agents : ConnectedAgents) (dbApp : App)
    (h : ∀ d ∈ dbApp.daemons, d.name ≠ "dhcp4" ∧ d.name ≠ "dhcp6") :
    getLeaseStatsFromApp agents dbApp = (AppCallOutcome.ok, []) := by
  unfold getLeaseStatsFromApp
  rw [getActiveDhcpDaemons_of_no_dhcp dbApp.daemons h]
  rfl

/-- Unfolding equation for lastErrAfter. -/
theorem lastErrAfter_cons (e : Option Err) (o : AppCallOutcome) (os : List AppCallOutcome) :
    lastErrAfter e (o :: os) =
      lastErrAfter
        (match o with
          | AppCallOutcome.err e2 => some e2
          | _ => e)
        os := rfl

/-- lastErrAfter keeps its starting value over a run of nil errors. -/
theorem lastErrAfter_of_all_ok (e : Option Err) (outcomes : List AppCallOutcome)
    (h : ∀ o ∈ outcomes, o = AppCallOutcome.ok) :
    lastErrAfter e outcomes = e := by
  induction outcomes with
  | nil => rfl
  | cons o os ih =>
    have ho := h o (by simp)
    subst ho
    exact ih (fun x hx => h x (by simp [hx]))

/-- Full characterization of the gatherLeaseStats loop in the absence of Go
runtime failures: the counter adds one per app whose call returned a nil
error and the error slot holds the last error seen. -/
theorem gatherLeaseStatsLoop_spec (agents : ConnectedAgents) (apps : List App)
    (c : Nat) (e : Option Err)
    (h : ∀ a ∈ apps, (getLeaseStatsFromApp agents a).1 ≠ AppCallOutcome.panicked) :
    gatherLeaseStatsLoop agents c e apps =
      some
        (c + apps.countP (fun a => decide ((getLeaseStatsFromApp agents a).1 = AppCallOutcome.ok)),
          lastErrAfter e (apps.map (fun a => (getLeaseStatsFromApp agents a).1))) := by
  induction apps generalizing c e with
  | nil => simp [gatherLeaseStatsLoop, lastErrAfter]
  | cons a rest ih =>
    have ha := h a (by simp)
    have hrest : ∀ x ∈ rest, (getLeaseStatsFromApp agents x).1 ≠ AppCallOutcome.panicked :=
      fun x hx => h x (by simp [hx])
    cases hout : (getLeaseStatsFromApp agents a).1 with
    | ok =>
      rw [show gatherLeaseStatsLoop agents c e (a :: rest) =
          gatherLeaseStatsLoop agents (c + 1) e rest by
        simp [gatherLeaseStatsLoop, hout]]
      rw [ih (c + 1) e hrest]
      simp [List.countP_cons, hout, lastErrAfter_cons]
      omega
    | err e2 =>
      rw [show gatherLeaseStatsLoop agents c e (a :: rest) =
          gatherLeaseStatsLoop agents c (some e2) rest by
        simp [gatherLeaseStatsLoop, hout]]
      rw [ih c (some e2) hrest]
      simp [List.countP_cons, hout, lastErrAfter_cons]
    | panicked => exact absurd hout ha

/-! ## Claim C1 -/

/-- Claim C1 (code bug): the claim states that the command batch contains
stat-lease4-get exactly when a dhcp4 daemon is active and stat-lease6-get
exactly when a dhcp6 daemon is active, which is the evident intent of the
source comment; line 138 however gates the stat-lease6-get append on the
dhcp4 key again. Evaluated at the failing inputs: an app with only dhcp6
active yields an empty batch, and an app with only dhcp4 active yields a
batch holding both commands. -/
theorem C1_stat_lease6_gated_on_dhcp4 :
    getActiveDhcpDaemons [⟨"dhcp6"⟩] = (⟨["dhcp6"]⟩, true) ∧
    buildLeaseStatsCmds ⟨["dhcp6"]⟩ = [] ∧
    (buildLeaseStatsCmds ⟨["dhcp4"]⟩).map KeaCommand.Command =
      ["stat-lease4-get", "stat-lease6-get"] := by
  decide

/-! ## Claim C2 -/

/-- The row logger succeeds exactly when the row is empty or its values fit
inside the column list from the starting index on. -/
theorem logLeaseStatRow_isSome_iff (columns : List String) (row : List Int) :
    ∀ colIdx : Nat,
      (logLeaseStatRow columns colIdx row).isSome ↔
        (row = [] ∨ colIdx + row.length ≤ columns.length) := by
  induction row with
  | nil => intro colIdx; simp [logLeaseStatRow]
  | cons v rest ih =>
    intro colIdx
    simp only [logLeaseStatRow]
    cases hc : columns[colIdx]? with
    | none =>
      have hlen : columns.length ≤ colIdx := by
        by_contra hlt
        push_neg at hlt
        rw [List.getElem?_eq_getElem hlt] at hc
        exact Option.noConfusion hc
      simp only [Option.isSome_none, List.length_cons]
      constructor
      · intro hfalse; exact absurd hfalse (by decide)
      · rintro (hnil | hle)
        · exact absurd hnil (by simp)
        · omega
    | some name =>
      have hlt : colIdx < columns.length := by
        by_contra hge
        push_neg at hge
        rw [List.getElem?_eq_none hge] at hc
        exact Option.noConfusion hc
      have hmatch :
          (match logLeaseStatRow columns (colIdx + 1) rest with
            | none => none
            | some tl => some ((name, v) :: tl)).isSome
            = (logLeaseStatRow columns (colIdx + 1) rest).isSome := by
        cases logLeaseStatRow columns (colIdx + 1) rest <;> rfl
      rw [hmatch, ih (colIdx + 1)]
      rcases rest with _ | ⟨w, ws⟩
      · simp
        omega
      · simp only [List.length_cons]
        constructor
        · rintro (hnil | hle)
          · exact absurd hnil (by simp)
          · right; omega
        · rintro (hnil | hle)
          · exact absurd hnil (by simp)
          · right; omega

/-- A successful row log has one entry per row value. -/
theorem logLeaseStatRow_length (columns : List String) (row : List Int) :
    ∀ (colIdx : Nat) (l : List (String × Int)),
      logLeaseStatRow columns colIdx row = some l → l.length = row.length := by
  induction row with
  | nil =>
    intro colIdx l hl
    simp only [logLeaseStatRow] at hl
    cases hl
    rfl
  | cons v rest ih =>
    intro colIdx l hl
    simp only [logLeaseStatRow] at hl
    cases hc : columns[colIdx]? with
    | none => rw [hc] at hl; exact Option.noConfusion hl
    | some name =>
      rw [hc] at hl
      cases hr : logLeaseStatRow columns (colIdx + 1) rest with
      | none => rw [hr] at hl; exact Option.noConfusion hl
      | some tl =>
        rw [hr] at hl
        cases hl
        simp [ih (colIdx + 1) tl hr]

/-- Processing of a list of rows fails exactly when some row holds more
values than there are declared columns. -/
theorem logLeaseStatRows_eq_none_iff (columns : List String) (rows : List (List Int)) :
    logLeaseStatRows columns rows = none ↔
      ∃ row ∈ rows, columns.length < row.length := by
  induction rows with
  | nil => simp [logLeaseStatRows]
  | cons row rest ih =>
    simp only [logLeaseStatRows]
    cases h1 : logLeaseStatRow columns 0 row with
    | none =>
      have hnone : ¬(row = [] ∨ 0 + row.length ≤ columns.length) := by
        intro hor
        have := (logLeaseStatRow_isSome_iff columns row 0).mpr hor
        rw [h1] at this
        exact Bool.noConfusion this
      push_neg at hnone
      constructor
      · intro _
        exact ⟨row, by simp, by omega⟩
      · intro _
        rfl
    | some l =>
      have hfit : row = [] ∨ 0 + row.length ≤ columns.length := by
        have : (logLeaseStatRow columns 0 row).isSome := by rw [h1]; rfl
        exact (logLeaseStatRow_isSome_iff columns row 0).mp this
      have hshort : ¬ columns.length < row.length := by
        rcases hfit with hnil | hle
        · subst hnil; simp
        · omega
      cases h2 : logLeaseStatRows columns rest with
      | none =>
        simp only [true_iff]
        obtain ⟨r, hr, hrlen⟩ := ih.mp h2
        exact ⟨r, by simp [hr], hrlen⟩
      | some ls =>
        simp only [List.mem_cons]
        constructor
        · intro hfalse; exact Option.noConfusion hfalse
        · rintro ⟨r, hr | hr, hrlen⟩
          · subst hr; exact absurd hrlen hshort
          · exact absurd (ih.mpr ⟨r, hr, hrlen⟩) (by rw [h2]; simp)

/-- A successful rows log has one entry per row: no row is skipped. -/
theorem logLeaseStatRows_length (columns : List String) (rows : List (List Int)) :
    ∀ ls, logLeaseStatRows columns rows = some ls → ls.length = rows.length := by
  induction rows with
  | nil =>
    intro ls hls
    simp only [logLeaseStatRows] at hls
    cases hls
    rfl
  | cons row rest ih =>
    intro ls hls
    simp only [logLeaseStatRows] at hls
    cases h1 : logLeaseStatRow columns 0 row with
    | none => rw [h1] at hls; exact Option.noConfusion hls
    | some l =>
      rw [h1] at hls
      cases h2 : logLeaseStatRows columns rest with
      | none => rw [h2] at hls; exact Option.noConfusion hls
      | some tl =>
        rw [h2] at hls
        cases hls
        simp [ih tl h2]

/-- Claim C2 counterexample: a result set declaring one column, whose first
row carries two values followed by a well formed one value row. The claim
says the first row is skipped and the second row is still processed; the
source instead fails with an index-out-of-range on the columns list (a none
result), and the well formed second row is lost with it. -/
theorem C2_counterexample_row_not_skipped :
    logLeaseStatResultSet ⟨["total-addresses"], [[256, 111], [300]]⟩ = none := by
  decide

/-- Claim C2 as amended: rows whose value count differs from the declared
column count are not skipped. Processing a result set fails, with an
out-of-bounds access on the columns list, exactly when some row holds more
values than there are declared columns; when every row fits, every row is
processed (the output has one entry per row, rows shorter than the column
list included). -/
theorem C2_amended_processing_characterized (rs : ResultSetInStatLeaseGet) :
    (logLeaseStatResultSet rs = none ↔ ∃ row ∈ rs.Rows, rs.Columns.length < row.length) ∧
    (∀ logs, logLeaseStatResultSet rs = some logs → logs.length = rs.Rows.length) :=
  ⟨logLeaseStatRows_eq_none_iff rs.Columns rs.Rows,
    fun logs h => logLeaseStatRows_length rs.Columns rs.Rows logs h⟩

/-- Claim C2 witness: the amended theorem applied to a concrete result set
with one short row and one exactly fitting row. -/
theorem C2_amended_witness :
    logLeaseStatResultSet ⟨["total-addresses", "assigned-addresses"], [[256], [300, 42]]⟩ =
      some [[("total-addresses", 256)], [("total-addresses", 300), ("assigned-addresses", 42)]] ∧
    ([[("total-addresses", (256 : Int))],
        [("total-addresses", 300), ("assigned-addresses", 42)]] : List (List (String × Int))).length =
      ([[256], [300, 42]] : List (List Int)).length :=
  ⟨by decide,
    (C2_amended_processing_characterized
        ⟨["total-addresses", "assigned-addresses"], [[256], [300, 42]]⟩).2
      [[("total-addresses", 256)], [("total-addresses", 300), ("assigned-addresses", 42)]]
      (by decide)⟩

/-! ## Claim C3 -/

/-- Claim C3: over a collection cycle whose per target calls hit no Go
runtime failure, a failure on one target does not prevent processing of the
remaining targets: the cycle returns, its success count is the number of
targets whose call returned a nil error, its error slot is the last error
encountered across all targets, and it is nil when every target succeeded. -/
theorem C3_cycle_continue_across_targets (agents : ConnectedAgents) (apps : List App)
    (h : ∀ a ∈ apps, (getLeaseStatsFromApp agents a).1 ≠ AppCallOutcome.panicked) :
    gatherLeaseStats agents (Except.ok apps) =
      some
        (apps.countP (fun a => decide ((getLeaseStatsFromApp agents a).1 = AppCallOutcome.ok)),
          lastErrorOf (apps.map (fun a => (getLeaseStatsFromApp agents a).1))) ∧
    ((∀ a ∈ apps, (getLeaseStatsFromApp agents a).1 = AppCallOutcome.ok) →
      lastErrorOf (apps.map (fun a => (getLeaseStatsFromApp agents a).1)) = none) := by
  constructor
  · have hspec := gatherLeaseStatsLoop_spec agents apps 0 none h
    simpa [gatherLeaseStats, lastErrorOf] using hspec
  · intro hall
    refine lastErrAfter_of_all_ok none _ ?_
    intro o ho
    obtain ⟨a, ha, rfl⟩ := List.mem_map.mp ho
    exact hall a ha

/-- Claim C3 witness: the theorem applied to the concrete pair of targets in
which t1 fails with a transport error and t2 succeeds; the outcome counts one
success and surfaces the t1 error. -/
theorem C3_witness :
    gatherLeaseStats agentsT1failT2ok (Except.ok [appT1, appT2]) =
      some (1, some "connection refused") := by
  have h := (C3_cycle_continue_across_targets agentsT1failT2ok [appT1, appT2] (by decide)).1
  rw [h]
  decide

/-! ## Claim C7 -/

/-- Claim C7: a target with no active dhcp4 or dhcp6 daemon is returned from
with a nil error and an empty collaborator call trace, so the transport is
never invoked for it; in the cycle loop such a target increments the success
counter and leaves the error slot alone, so it is not counted as a failure. -/
theorem C7_skip_without_transport (agents : ConnectedAgents) (dbApp : App)
    (h : ∀ d ∈ dbApp.daemons, d.name ≠ "dhcp4" ∧ d.name ≠ "dhcp6") :
    getLeaseStatsFromApp agents dbApp = (AppCallOutcome.ok, []) ∧
    (∀ (c : Nat) (e : Option Err) (rest : List App),
      gatherLeaseStatsLoop agents c e (dbApp :: rest) =
        gatherLeaseStatsLoop agents (c + 1) e rest) := by
  have hs := getLeaseStatsFromApp_skip agents dbApp h
  refine ⟨hs, fun c e rest => ?_⟩
  simp [gatherLeaseStatsLoop, hs]

/-- Claim C7 witness: the theorem applied to the app that runs only a control
agent daemon. -/
theorem C7_witness :
    getLeaseStatsFromApp agentsT1failT2ok appNoDhcp = (AppCallOutcome.ok, []) ∧
    gatherLeaseStatsLoop agentsT1failT2ok 0 none [appNoDhcp] =
      gatherLeaseStatsLoop agentsT1failT2ok 1 none [] := by
  have h := C7_skip_without_transport agentsT1failT2ok appNoDhcp (by decide)
  exact ⟨h.1, by simpa using h.2 0 none []⟩

/-! ## Claim C10 -/

/-- Claim C10: the success count returned by a cycle that hits no Go runtime
failure equals the number of targets whose call returned a nil error, and a
target with no active dhcp4 or dhcp6 daemon returns a nil error, so a skipped
target is counted toward the success count exactly like a processed one. -/
theorem C10_skipped_indistinguishable_from_success (agents : ConnectedAgents) (apps : List App)
    (h : ∀ a ∈ apps, (getLeaseStatsFromApp agents a).1 ≠ AppCallOutcome.panicked) :
    (∃ e, gatherLeaseStats agents (Except.ok apps) =
      some
        (apps.countP (fun a => decide ((getLeaseStatsFromApp agents a).1 = AppCallOutcome.ok)),
          e)) ∧
    (∀ a ∈ apps,
      (∀ d ∈ a.daemons, d.name ≠ "dhcp4" ∧ d.name ≠ "dhcp6") →
        (getLeaseStatsFromApp agents a).1 = AppCallOutcome.ok) := by
  constructor
  · refine ⟨lastErrAfter none (apps.map (fun a => (getLeaseStatsFromApp agents a).1)), ?_⟩
    have hspec := gatherLeaseStatsLoop_spec agents apps 0 none h
    simpa [gatherLeaseStats] using hspec
  · intro a _ hd
    rw [getLeaseStatsFromApp_skip agents a hd]

/-- Claim C10 witness: the theorem applied to a cycle holding one failing
target, one succeeding target and one skipped target; the count is two. -/
theorem C10_witness :
    ∃ e, gatherLeaseStats agentsT1failT2ok (Except.ok [appT1, appT2, appNoDhcp]) =
      some (2, e) := by
  have h :=
    (C10_skipped_indistinguishable_from_success agentsT1failT2ok
      [appT1, appT2, appNoDhcp] (by decide)).1
  obtain ⟨e, he⟩ := h
  have hc :
      ([appT1, appT2, appNoDhcp].countP
        (fun a => decide ((getLeaseStatsFromApp agentsT1failT2ok a).1 = AppCallOutcome.ok))) = 2 := by
    decide
  rw [hc] at he
  exact ⟨e, he⟩

/-! ## Claim C4 -/

/-- The collaborator call trace of getLeaseStatsFromApp is either empty (the
skip path) or the single forward call; in particular it never holds a storage
write. -/
theorem getLeaseStatsFromApp_trace (agents : ConnectedAgents) (dbApp : App) :
    (getLeaseStatsFromApp agents dbApp).2 = [] ∨
    (getLeaseStatsFromApp agents dbApp).2 =
      [CollabCall.forwardToKea dbApp.machineAddress dbApp.machineAgentPort
        (HostWithPortURL dbApp.ctrlAddress dbApp.ctrlPort)
        (buildLeaseStatsCmds (getActiveDhcpDaemons dbApp.daemons).1)] := by
  simp only [getLeaseStatsFromApp]
  split
  · left; rfl
  · split
    · right; rfl
    · split
      · right; rfl
      · split
        · right; rfl
        · split
          · right; rfl
          · right; rfl

/-- Claim C4 counterexample: a target whose batch succeeds and whose response
decodes to a non empty normalized record list, yet the collaborator call
trace of the collection holds only the forward call and no storage write at
all: nothing is upserted before the outcome is returned. -/
theorem C4_counterexample_no_upsert_call :
    (getLeaseStatsFromApp agentsWithStats appDhcp4).1 = AppCallOutcome.ok ∧
    logStatResponses (stats4RespSample.map StatLease4GetResponse.Arguments) =
      some [[("total-addresses", 256), ("assigned-addresses", 111)]] ∧
    (getLeaseStatsFromApp agentsWithStats appDhcp4).2 =
      [CollabCall.forwardToKea "machine1" 8080 "http://192.0.2.1:8000/"
        (buildLeaseStatsCmds ⟨["dhcp4"]⟩)] := by
  decide

/-- Claim C4 as amended: the stats collector performs no write through the
storage collaborator at all; on a successful batch the decoded result sets
are only logged, so for every transport environment and every target the
collaborator call trace holds no storage upsert. -/
theorem C4_amended_no_storage_writes (agents : ConnectedAgents) (dbApp : App) :
    ∀ call ∈ (getLeaseStatsFromApp agents dbApp).2, call.isStorageUpsert = false := by
  intro call hc
  rcases getLeaseStatsFromApp_trace agents dbApp with h | h <;> rw [h] at hc
  · exact absurd hc (by simp)
  · rw [List.mem_singleton] at hc
    subst hc
    rfl

/-- Claim C4 witness: the amended theorem applied to the concrete successful
target, whose trace holds exactly the forward call. -/
theorem C4_amended_witness :
    CollabCall.isStorageUpsert
      (CollabCall.forwardToKea "machine1" 8080 "http://192.0.2.1:8000/"
        (buildLeaseStatsCmds ⟨["dhcp4"]⟩)) = false :=
  C4_amended_no_storage_writes agentsWithStats appDhcp4
    (CollabCall.forwardToKea "machine1" 8080 "http://192.0.2.1:8000/"
      (buildLeaseStatsCmds ⟨["dhcp4"]⟩))
    (by decide)

/-! ## Claim C5 -/

/-- Claim C5: for every dequeued event the writer task calls the persistence
collaborator exactly once, in order and for every event (so a persistence
failure is not retried and does not stop the task), and an event is handed to
the broker exactly when its persistence call returned a nil error. -/
theorem C5_persist_gates_dispatch (persistEvent : Event → Option Err) (events : List Event) :
    (mainLoopProcess persistEvent events).1 = events ∧
    (mainLoopProcess persistEvent events).2 =
      events.filter (fun e => (persistEvent e).isNone) := by
  induction events with
  | nil => exact ⟨rfl, rfl⟩
  | cons ev rest ih =>
    cases hp : persistEvent ev <;>
      simp [mainLoopProcess, hp, ih.1, ih.2, List.filter_cons]

/-! ## Claim C6 -/

/-- Claim C6 counterexample: CreateEvent given two machines and a machine
placeholder. The claim says the placeholder ends up holding the descriptor of
the last machine processed; the source instead consumes every occurrence of
the placeholder at the first machine, so the text holds the first descriptor
and differs from the text the claim predicts, while the relation set does
record the last identifier. -/
theorem C6_counterexample_first_tag_wins :
    (CreateEvent 1 "machine {machine} is unreachable"
        [RelatedObject.machine machine5, RelatedObject.machine machine6]).text =
      "machine " ++ machineTag machine5 ++ " is unreachable" ∧
    (CreateEvent 1 "machine {machine} is unreachable"
        [RelatedObject.machine machine5, RelatedObject.machine machine6]).text ≠
      "machine " ++ machineTag machine6 ++ " is unreachable" ∧
    (CreateEvent 1 "machine {machine} is unreachable"
        [RelatedObject.machine machine5, RelatedObject.machine machine6]).relations.machine = 6 := by
  decide

/-- Replacement is the identity on a character list in which the pattern does
not occur. -/
theorem replaceAllCharsAux_of_not_contains (pat rep : List Char) (s : List Char)
    (h : containsPat pat s = false) : replaceAllCharsAux pat rep 0 s = s := by
  induction s with
  | nil => rfl
  | cons c rest ih =>
    rw [containsPat, Bool.or_eq_false_iff] at h
    simp only [replaceAllCharsAux, h.1, Bool.and_false, Bool.false_eq_true, if_false]
    rw [ih h.2]

/-- Replacement is the identity on a string in which the pattern does not
occur. -/
theorem stringsReplaceAll_of_not_contains (s pat rep : String)
    (h : stringContainsPat s pat = false) : stringsReplaceAll s pat rep = s := by
  unfold stringsReplaceAll
  rw [replaceAllCharsAux_of_not_contains pat.data rep.data s.data h]

/-- Claim C6 as amended: when CreateEvent is given more than one related
object of the same kind, the relation set records the identifier of the last
such object; the event text however keeps the descriptor of the first such
object: for every severity level, every text and every two machines, as long
as the placeholder no longer occurs in the text once the first machine has
been substituted (which holds whenever the first descriptor does not itself
reintroduce the placeholder token), the later machine finds no placeholder
left and leaves the text unchanged, so the final text is precisely the
substitution of the first descriptor. -/
theorem C6_amended_first_text_last_relation (level : Int) (text : String) (m1 m2 : Machine)
    (h : stringContainsPat (stringsReplaceAll text "{machine}" (machineTag m1)) "{machine}"
      = false) :
    (CreateEvent level text [RelatedObject.machine m1, RelatedObject.machine m2]).text =
      stringsReplaceAll text "{machine}" (machineTag m1) ∧
    (CreateEvent level text [RelatedObject.machine m1, RelatedObject.machine m2]).relations.machine =
      m2.ID := by
  constructor
  · show stringsReplaceAll (stringsReplaceAll text "{machine}" (machineTag m1))
        "{machine}" (machineTag m2) =
      stringsReplaceAll text "{machine}" (machineTag m1)
    exact stringsReplaceAll_of_not_contains _ _ _ h
  · rfl

/-- Claim C6 witness: the amended theorem applied to the concrete scenario of
the counterexample; the first tag holds no placeholder, so the hypothesis is
discharged by evaluation. -/
theorem C6_amended_witness :
    (CreateEvent 1 "machine {machine} is unreachable"
        [RelatedObject.machine machine5, RelatedObject.machine machine6]).text =
      stringsReplaceAll "machine {machine} is unreachable" "{machine}" (machineTag machine5) ∧
    (CreateEvent 1 "machine {machine} is unreachable"
        [RelatedObject.machine machine5, RelatedObject.machine machine6]).relations.machine =
      machine6.ID :=
  C6_amended_first_text_last_relation 1 "machine {machine} is unreachable"
    machine5 machine6 (by decide)

/-! ## Claim C8 -/

/-- Claim C8 counterexample: the events channel of NewEventCenter has
capacity zero, so in the state where the single writer task is persisting an
earlier event (hence not waiting at its select), the send performed by
AddEvent does not complete without blocking the caller; the severity
wrappers funnel into the same send. -/
theorem C8_counterexample_blocked_while_persisting :
    addEventCompletesWithoutBlocking 0 (WriterTaskState.persistingEvent sampleEvent) = false := by
  decide

/-- Claim C8 as amended: AddEvent (and through addEvent the wrappers
AddInfoEvent, AddWarnEvent and AddErroEvent) is a synchronous rendezvous, not
a non blocking handoff: since the events channel is unbuffered, the send
completes without blocking exactly when the writer task is already waiting at
its select, and blocks the caller whenever the writer is persisting an
earlier event. -/
theorem C8_amended_rendezvous (buffered : Nat) (w : WriterTaskState) :
    addEventCompletesWithoutBlocking buffered w = writerReady w := by
  cases w <;>
    simp [addEventCompletesWithoutBlocking, chanSendCompletes, eventsChanCapacity, writerReady]

/-! ## Claim C9 -/

/-- The invariant holds in the constructed state. -/
theorem lifecycleInv_init : LifecycleInv initLifecycle := by
  refine ⟨rfl, ?_, ?_⟩ <;> intro h <;> simp [initLifecycle] at h

/-- The invariant is preserved by every interleaved step. -/
theorem lifecycleInv_step (s t : LifecycleState) (hst : LifecycleStep s t)
    (hinv : LifecycleInv s) : LifecycleInv t := by
  obtain ⟨h1, h2, h3⟩ := hinv
  cases hst with
  | workArrives => exact ⟨h1, h2, h3⟩
  | startWork ha hw =>
    refine ⟨?_, ?_, fun hsh => h3 hsh⟩
    · show s.wgCount = if LoopPhase.working = LoopPhase.exited then 0 else 1
      rw [ha] at h1
      simpa using h1
    · intro hsh
      rcases h2 hsh with hl | hl <;> rw [ha] at hl <;> exact absurd hl (by decide)
  | finishWork ha =>
    refine ⟨?_, ?_, fun hsh => h3 hsh⟩
    · show s.wgCount = if LoopPhase.atSelect = LoopPhase.exited then 0 else 1
      rw [ha] at h1
      simpa using h1
    · intro hsh
      rcases h2 hsh with hl | hl <;> rw [ha] at hl <;> exact absurd hl (by decide)
  | callShutdown ha =>
    refine ⟨h1, ?_, ?_⟩
    · intro hsh
      rcases hsh with hsh | hsh <;> simp at hsh
    · intro hsh
      simp at hsh
  | doneRendezvous ha hb =>
    refine ⟨?_, ?_, ?_⟩
    · show s.wgCount = if LoopPhase.retiring = LoopPhase.exited then 0 else 1
      rw [hb] at h1
      simpa using h1
    · intro _
      left; rfl
    · intro hsh
      simp at hsh
  | deferredWgDone ha =>
    refine ⟨?_, ?_, ?_⟩
    · show s.wgCount - 1 = if LoopPhase.exited = LoopPhase.exited then 0 else 1
      rw [ha] at h1
      simp at h1 ⊢
      omega
    · intro _
      right; rfl
    · intro hsh
      show s.wgCount - 1 = 0
      have := h3 hsh
      omega
  | wgWaitReturns ha hb =>
    refine ⟨h1, ?_, ?_⟩
    · intro _
      exact h2 (Or.inl ha)
    · intro _
      exact hb

/-- Every reachable state satisfies the invariant. -/
theorem lifecycleInv_reachable (s : LifecycleState) (h : LifecycleReachable s) :
    LifecycleInv s := by
  induction h with
  | refl => exact lifecycleInv_init
  | tail _ hstep ih => exact lifecycleInv_step _ _ hstep ih

/-- Claim C9: in every reachable state in which Shutdown has returned, the
background task has fully exited (it left its loop and ran its deferred wait
group decrement), and no step from such a state can start the work body (a
tick action of a puller, or the persist-and-dispatch of an event): Shutdown
returns only after the task has exited and nothing starts afterwards. -/
theorem C9_shutdown_after_exit (s : LifecycleState) (hreach : LifecycleReachable s)
    (hret : s.shutdown = ShutdownPhase.returned) :
    s.loop = LoopPhase.exited ∧
    (∀ t, LifecycleStep s t → t.loop ≠ LoopPhase.working) := by
  obtain ⟨h1, h2, h3⟩ := lifecycleInv_reachable s hreach
  have hwg : s.wgCount = 0 := h3 hret
  have hex : s.loop = LoopPhase.exited := by
    by_contra hne
    rw [if_neg hne] at h1
    omega
  refine ⟨hex, ?_⟩
  intro t hstep
  cases hstep with
  | workArrives =>
    show s.loop ≠ LoopPhase.working
    rw [hex]
    decide
  | startWork ha hw => rw [hex] at ha; exact absurd ha (by decide)
  | finishWork ha => rw [hex] at ha; exact absurd ha (by decide)
  | callShutdown ha => rw [hret] at ha; exact absurd ha (by decide)
  | doneRendezvous ha hb => rw [hret] at ha; exact absurd ha (by decide)
  | deferredWgDone ha => rw [hex] at ha; exact absurd ha (by decide)
  | wgWaitReturns ha hb => rw [hret] at ha; exact absurd ha (by decide)

/-- Claim C9 witness: the state reached by the run construct, shutdown,
rendezvous on done, deferred decrement, wait group release is a reachable
returned state, and the theorem applies to it. -/
theorem C9_witness :
    lifecycleReturnedState.loop = LoopPhase.exited ∧
    (∀ t, LifecycleStep lifecycleReturnedState t → t.loop ≠ LoopPhase.working) :=
  C9_shutdown_after_exit lifecycleReturnedState
    (Relation.ReflTransGen.head (LifecycleStep.callShutdown initLifecycle rfl)
      (Relation.ReflTransGen.head
        (LifecycleStep.doneRendezvous
          ⟨LoopPhase.atSelect, ShutdownPhase.sendingDone, 1, false⟩ rfl rfl)
        (Relation.ReflTransGen.head
          (LifecycleStep.deferredWgDone
            ⟨LoopPhase.retiring, ShutdownPhase.waitingOnWg, 1, false⟩ rfl)
          (Relation.ReflTransGen.single
            (LifecycleStep.wgWaitReturns
              ⟨LoopPhase.exited, ShutdownPhase.waitingOnWg, 0, false⟩ rfl rfl)))))
    rfl

end Stork
